import Mathlib

/-!
Verification development for the RCN dashboard pipeline
(`rcn_dashboard.py`): a shallow embedding of the data-normalisation,
forecasting and ranking core, with theorems settling the specified
properties.

Conventions of the embedding:
* pandas DataFrames are lists of records; a missing value (NaN/NaT/None)
  is `Option.none`;
* money and quantities are rationals (`ℚ`), months are absolute month
  indices (`year * 12 + month : ℕ`);
* Python code that can raise returns `Except PyErr _`; a raised
  exception is `Except.error`;
* network I/O is a parameter: the fetch environment maps a request to
  its outcome (HTTP response, or a transport error that makes
  `requests.get` raise).
-/

/-- Exception classes the embedded code can raise. -/
inductive PyErr where
  /-- `requests` transport failure (timeout, connection error). -/
  | requestException
  /-- `r.json()` on a body that is not valid JSON. -/
  | jsonDecodeError
  /-- column lookup on a DataFrame that lacks the column. -/
  | keyError
deriving DecidableEq, Repr

/-- One record of the bulk-trade payload. `none` models an absent key
(or JSON null), on which the Python `.get` default applies. -/
structure JsonRec where
  tradeValue : Option ℚ
  qty : Option ℚ
deriving DecidableEq, Repr

/-- Parse outcome of a response body: `parsed data?` models a JSON
object on which `.get ("data", [])` yields `data?.getD []`;
`malformed` models a body on which `r.json()` raises. -/
inductive PayloadParse where
  | parsed (data : Option (List JsonRec))
  | malformed

/-- Outcome of one `requests.get`: an HTTP response with a status and a
body, or a transport error (the call itself raises). -/
inductive FetchOutcome where
  | response (status : Nat) (body : PayloadParse)
  | transportError

/-- A row of the DataFrame built by `comtrade_price`
(`{"year": y, "value": val, "qty": qty, "usd_per_t": ...}`). -/
structure CRow where
  year : Nat
  value : ℚ
  qty : ℚ
  usd_per_t : Option ℚ
deriving DecidableEq, Repr

/-- The inner loop of `comtrade_price` over one year's `data` list:
`val = rec.get ("TradeValue", 0)`, `qty = rec.get ("qty", 0)`; a row is
appended only under `if qty:` (truthiness, i.e. `qty ≠ 0`), and the
appended row's `usd_per_t` is the conditional expression
`val / qty if qty else None` exactly as written in the source. -/
def comtradeRows (y : Nat) (data : List JsonRec) : List CRow :=
  data.filterMap fun rec =>
    let val := rec.tradeValue.getD 0
    let qty := rec.qty.getD 0
    if qty ≠ 0 then
      some { year := y, value := val, qty := qty,
             usd_per_t := if qty ≠ 0 then some (val / qty) else none }
    else none

/-- The year loop of `comtrade_price`, accumulating `rows`.  A transport
error raises out of the loop; a non-200 status `continue`s; a malformed
body makes `r.json()` raise; otherwise the year's rows are appended. -/
def comtradeGo (fetch : Nat → FetchOutcome) : List Nat → List CRow → Except PyErr (List CRow)
  | [], acc => .ok acc
  | y :: ys, acc =>
    match fetch y with
    | .transportError => .error .requestException
    | .response status body =>
      if status ≠ 200 then comtradeGo fetch ys acc
      else
        match body with
        | .malformed => .error .jsonDecodeError
        | .parsed data => comtradeGo fetch ys (acc ++ comtradeRows y (data.getD []))

/-- Embedding of `comtrade_price (origin_iso, years)`: the resulting
DataFrame as a row list, or the exception the Python call raises.  The
origin is folded into the fetch environment (it only parametrises the
URL). -/
def comtrade_price (fetch : Nat → FetchOutcome) (years : List Nat) : Except PyErr (List CRow) :=
  comtradeGo fetch years []

/-- Embedding of `df['usd_per_t'].mean()` on a frame returned by
`comtrade_price`: a frame built from an empty row list has no columns,
so the column lookup raises `KeyError`; otherwise the mean skips
missing values and is NaN (`none`) when every value is missing. -/
def colMean_usd_per_t (df : List CRow) : Except PyErr (Option ℚ) :=
  if df.isEmpty then .error .keyError
  else
    let vs := df.filterMap (·.usd_per_t)
    if vs.isEmpty then .ok none
    else .ok (some (vs.sum / (vs.length : ℚ)))

/-- The configured origin map (`ORIGINS`), in insertion order. -/
def ORIGINS : List (String × String) :=
  [("Ghana", "GH"), ("Côte d\x27Ivoire", "CI"), ("Guinea", "GN"),
   ("Tanzania", "TZ"), ("Benin", "BJ")]

-- Helper lemmas about the adapter rows.

/-- Every row `comtrade_price` can produce has a non-zero quantity and a
defined `usd_per_t` equal to `value / qty`. -/
theorem comtradeRows_mem {y : Nat} {data : List JsonRec} {r : CRow}
    (h : r ∈ comtradeRows y data) :
    r.qty ≠ 0 ∧ r.usd_per_t = some (r.value / r.qty) := by
  unfold comtradeRows at h
  rw [List.mem_filterMap] at h
  obtain ⟨rec, -, hrec⟩ := h
  by_cases hq : rec.qty.getD 0 ≠ 0
  · rw [if_pos hq, Option.some_inj] at hrec
    subst hrec
    exact ⟨hq, by rw [if_pos hq]⟩
  · rw [if_neg hq] at hrec
    exact absurd hrec (by simp)

theorem comtradeGo_ok_mem {fetch : Nat → FetchOutcome} :
    ∀ {ys : List Nat} {acc rows : List CRow},
      comtradeGo fetch ys acc = .ok rows →
      (∀ r ∈ acc, r.qty ≠ 0 ∧ r.usd_per_t = some (r.value / r.qty)) →
      ∀ r ∈ rows, r.qty ≠ 0 ∧ r.usd_per_t = some (r.value / r.qty) := by
  intro ys
  induction ys with
  | nil =>
    intro acc rows h hacc
    simp only [comtradeGo, Except.ok.injEq] at h
    exact h ▸ hacc
  | cons y ys ih =>
    intro acc rows h hacc
    cases hf : fetch y with
    | transportError => simp [comtradeGo, hf] at h
    | response status body =>
      simp only [comtradeGo, hf] at h
      by_cases hs : status ≠ 200
      · rw [if_pos hs] at h
        exact ih h hacc
      · rw [if_neg hs] at h
        cases body with
        | malformed => simp at h
        | parsed data =>
          refine ih h ?_
          intro r hr
          rcases List.mem_append.mp hr with h1 | h2
          · exact hacc r h1
          · exact comtradeRows_mem h2

/-- If every year in the list gets a non-success HTTP response, the year
loop leaves the accumulator unchanged and raises nothing. -/
theorem comtradeGo_all_fail {fetch : Nat → FetchOutcome} :
    ∀ {ys : List Nat} {acc : List CRow},
      (∀ y ∈ ys, ∃ s b, fetch y = .response s b ∧ s ≠ 200) →
      comtradeGo fetch ys acc = .ok acc := by
  intro ys
  induction ys with
  | nil => intro acc _; rfl
  | cons y ys ih =>
    intro acc h
    obtain ⟨s, b, hf, hs⟩ := h y (List.mem_cons_self y ys)
    simp only [comtradeGo, hf, if_pos hs]
    exact ih fun y hy => h y (List.mem_cons_of_mem _ hy)

-- ------------------------------------------------------------------
-- Ledger loader (`load_tuticorin_xls`) and the shipment data model.
-- ------------------------------------------------------------------

/-- Configured destination port code (`PORT_CODE_TUTICORIN`). -/
def PORT_CODE_TUTICORIN : String := "INTUT1"

/-- A calendar date as parsed by `pd.to_datetime`. -/
structure CalDate where
  year : Nat
  month : Nat
  day : Nat
deriving DecidableEq, Repr

/-- Truncation of a date to its calendar month
(`DATE.dt.to_period ("M")`), as an absolute month index. -/
def monthKey (d : CalDate) : Nat :=
  d.year * 12 + d.month

/-- A raw spreadsheet cell of one of the numeric columns before
`pd.to_numeric (errors = "coerce")` runs: a number, non-numeric text,
or an empty cell. -/
inductive Cell where
  | num (q : ℚ)
  | text (s : String)
  | blank
deriving DecidableEq, Repr

/-- Embedding of `pd.to_numeric (errors = "coerce")` on one cell: a
non-number coerces to missing (NaN). -/
def to_numeric : Cell → Option ℚ
  | .num q => some q
  | .text _ => none
  | .blank => none

/-- A raw row of the ledger file as produced by `pd.read_excel` with
`header = 5`.  The `date` field carries the outcome of
`pd.to_datetime (errors = "coerce")`: `none` is NaT (unparseable or
empty).  Text columns hold `none` when the cell is empty (NaN). -/
structure RawRow where
  date : Option CalDate
  portCode : Option String
  goods : Option String
  quantity : Cell
  unitPrice : Cell
  totalValue : Cell
  importer : Option String
  origin : Option String
deriving DecidableEq, Repr

/-- A processed shipment row (the frame `load_tuticorin_xls` returns):
the numeric columns have been coerced, missing values are `none`. -/
structure ShipRow where
  date : Option CalDate
  portCode : Option String
  goods : Option String
  quantity : Option ℚ
  unitPrice : Option ℚ
  totalValue : Option ℚ
  importer : Option String
  origin : Option String
deriving DecidableEq, Repr

/-- Numeric coercion of the three numeric columns of one retained row
(the loop `for col in ["QUANTITY", "UNIT PRICE_USD", "TOTAL VALUE_USD"]`). -/
def coerceRow (r : RawRow) : ShipRow :=
  { date := r.date, portCode := r.portCode, goods := r.goods,
    quantity := to_numeric r.quantity, unitPrice := to_numeric r.unitPrice,
    totalValue := to_numeric r.totalValue, importer := r.importer,
    origin := r.origin }

/-- Embedding of `load_tuticorin_xls`: dates are coerced (already
reflected in `RawRow.date`), rows are filtered to the configured port
(`df [df ["PORT CODE"] == PORT_CODE_TUTICORIN]`; a missing port code
compares unequal), and the numeric columns are coerced.  The
`st.cache_data` decorator memoizes a pure function and is dropped. -/
def load_tuticorin_xls (rows : List RawRow) : List ShipRow :=
  (rows.filter fun r => r.portCode = some PORT_CODE_TUTICORIN).map coerceRow

-- ------------------------------------------------------------------
-- Monthly aggregation and the forecaster (`train_price_model`).
-- ------------------------------------------------------------------

/-- Substring test embedding `Series.str.contains (grade, na = False)`
on one cell: a missing description counts as no match. -/
def strContains (s pat : String) : Bool :=
  decide (pat.data <:+: s.data)

/-- The grade filter of `train_price_model`
(`mdf [mdf ["GOODS DESCRIPTION"].str.contains (grade, na = False)]`). -/
def gradeFiltered (rows : List ShipRow) (grade : String) : List ShipRow :=
  rows.filter fun r =>
    match r.goods with
    | some s => strContains s grade
    | none => false

/-- The sorted list of distinct month keys occurring among the rows
with a parseable date; `groupby` drops NaT keys and sorts the group
keys ascending. -/
def monthsOf (rows : List ShipRow) : List Nat :=
  List.insertionSort (· ≤ ·) ((rows.filterMap fun r => r.date.map monthKey).dedup)

/-- The defined unit prices of the rows falling in month `m`; the
pandas `mean` skips missing values. -/
def monthPrices (rows : List ShipRow) (m : Nat) : List ℚ :=
  rows.filterMap fun r =>
    if r.date.map monthKey = some m then r.unitPrice else none

/-- Embedding of the monthly aggregation used in `train_price_model`
(lines `mdf ["ds"] = ...; mdf = mdf.groupby ("ds") ["UNIT PRICE_USD"]
.mean ().reset_index ().dropna ()`) and in the raw-series fallback:
one `(month, mean price)` pair per month, months ascending, months
whose mean is undefined (all prices missing) dropped by `dropna`. -/
def monthly_price_series (rows : List ShipRow) : List (Nat × ℚ) :=
  (monthsOf rows).filterMap fun m =>
    let ps := monthPrices rows m
    if ps.isEmpty then none
    else some (m, ps.sum / (ps.length : ℚ))

/-- Modelled library behavior (`Prophet.make_future_dataframe` with
`freq = "MS"`): the history months followed by `periods` consecutive
further months. -/
def make_future_dataframe (histMonths : List Nat) (periods : Nat) : List Nat :=
  histMonths ++ (List.range periods).map fun i => (histMonths.getLastD 0) + i + 1

/-- Modelled library behavior (`Prophet.predict`): one predicted point
per row of the future frame.  The numeric point estimate of the fitted
model is outside the repository; it is abstracted as the mean of the
fitted series, which no claim depends on. -/
def prophet_predict (series : List (Nat × ℚ)) (future : List Nat) : List (Nat × ℚ) :=
  let fitMean := (series.map Prod.snd).sum / (series.length : ℚ)
  future.map fun m => (m, fitMean)

/-- Embedding of `train_price_model (df, grade)`: grade filter, monthly
aggregation, the under-12-points guard returning `None`, otherwise a
fit over the monthly series and a prediction over the history plus a
hardcoded `periods = 6` future months.  The Python function returns the
pair `(model, forecast)`; only the forecast frame is observable
downstream, so the embedding returns it directly. -/
def train_price_model (df : List ShipRow) (grade : String) : Option (List (Nat × ℚ)) :=
  let mdf := monthly_price_series (gradeFiltered df grade)
  if mdf.length < 12 then none
  else some (prophet_predict mdf (make_future_dataframe (mdf.map Prod.fst) 6))

-- ------------------------------------------------------------------
-- Ranking engines: buy side (`buy_table`) and sell side
-- (`proc_avg` / `top_buyers`).
-- ------------------------------------------------------------------

/-- The configured origins the user selected, in `ORIGINS` insertion
order (the comprehension `for o, iso in ORIGINS.items () if o in
sel_origin`). -/
def selOrigins (sel : List String) : List (String × String) :=
  ORIGINS.filter fun p => sel.contains p.1

/-- One buy-side entry before the frame is built: the origin name and
the value of `comtrade_price (iso, years) ['usd_per_t'].mean ()`, which
raises when the fetch raised or when the fetched frame is empty
(column lookup on a columnless frame). -/
def buyEntry (fetch : String → Nat → FetchOutcome) (years : List Nat)
    (p : String × String) : Except PyErr (String × Option ℚ) :=
  match comtrade_price (fetch p.2) years with
  | .error e => .error e
  | .ok df =>
    match colMean_usd_per_t df with
    | .error e => .error e
    | .ok m => .ok (p.1, m)

/-- The list comprehension of `buy_table`, evaluated left to right; the
first exception raised by an entry propagates. -/
def buildEntries (fetch : String → Nat → FetchOutcome) (years : List Nat) :
    List (String × String) → Except PyErr (List (String × Option ℚ))
  | [] => .ok []
  | p :: ps =>
    match buyEntry fetch years p with
    | .error e => .error e
    | .ok ent =>
      match buildEntries fetch years ps with
      | .error e => .error e
      | .ok es => .ok (ent :: es)

/-- Ascending comparison by estimated FOB price, the sort key of
`sort_values ("FOB est. USD/t")`. -/
def buyR (a b : String × ℚ) : Prop :=
  a.2 ≤ b.2

instance : DecidableRel buyR := fun a b =>
  inferInstanceAs (Decidable (a.2 ≤ b.2))

instance : IsTotal (String × ℚ) buyR :=
  ⟨fun a b => le_total a.2 b.2⟩

instance : IsTrans (String × ℚ) buyR :=
  ⟨fun _ _ _ hab hbc => le_trans hab hbc⟩

/-- Embedding of the `buy_table` computation: build one row per
selected origin (any exception in the comprehension propagates), build
the frame, `dropna ()` the rows with a missing price, and
`sort_values ("FOB est. USD/t")` ascending — which raises `KeyError`
when the comprehension produced no rows at all, because the empty
frame has no such column. -/
def buy_table (fetch : String → Nat → FetchOutcome) (sel : List String)
    (years : List Nat) : Except PyErr (List (String × ℚ)) :=
  match buildEntries fetch years (selOrigins sel) with
  | .error e => .error e
  | .ok es =>
    if es.isEmpty then .error .keyError
    else .ok (List.insertionSort buyR (es.filterMap fun p => p.2.map ((p.1, ·))))

/-- One row of `proc_avg`: an importer with its mean paid unit price
(`none` when every price in the group is missing) and its summed
quantity (pandas sums missing-only groups to `0`). -/
structure BuyerRow where
  importer : String
  avgPrice : Option ℚ
  totalQty : ℚ
deriving DecidableEq, Repr

/-- The aggregate row `proc_avg` computes for one importer:
`agg ({"UNIT PRICE_USD": "mean", "QUANTITY": "sum"})` over that
importer's group. -/
def buyerFor (rows : List ShipRow) (imp : String) : BuyerRow :=
  let grp := rows.filter fun r => r.importer = some imp
  let ps := grp.filterMap (·.unitPrice)
  let qs := grp.filterMap (·.quantity)
  { importer := imp,
    avgPrice := if ps.isEmpty then none else some (ps.sum / (ps.length : ℚ)),
    totalQty := qs.sum }

/-- Embedding of `proc_avg = imports_df.groupby ("IMPORTER").agg (...)
.reset_index ()`: one aggregate row per distinct importer; `groupby`
drops rows with a missing importer and sorts the keys ascending. -/
def proc_avg (rows : List ShipRow) : List BuyerRow :=
  (List.insertionSort (· ≤ ·) ((rows.filterMap (·.importer)).dedup)).map (buyerFor rows)

/-- The sort key of the sell-side ordering: a missing mean price sits
below every defined price, matching the pandas default of placing NaN
keys last. -/
def sellKey (b : BuyerRow) : WithBot ℚ :=
  match b.avgPrice with
  | some q => (q : WithBot ℚ)
  | none => ⊥

/-- Descending comparison by mean paid price, the sort key of
`sort_values ("UNIT PRICE_USD", ascending = False)`. -/
def sellR (a b : BuyerRow) : Prop :=
  sellKey b ≤ sellKey a

instance : DecidableRel sellR := fun a b =>
  inferInstanceAs (Decidable (sellKey b ≤ sellKey a))

instance : IsTotal BuyerRow sellR :=
  ⟨fun a b => (le_total (sellKey b) (sellKey a)).imp id id⟩

instance : IsTrans BuyerRow sellR :=
  ⟨fun _ _ _ hab hbc => le_trans hbc hab⟩

/-- Embedding of `top_buyers = proc_avg.sort_values ("UNIT PRICE_USD",
ascending = False).head (10)`. -/
def top_buyers (rows : List ShipRow) : List BuyerRow :=
  (List.insertionSort sellR (proc_avg rows)).take 10

-- ------------------------------------------------------------------
-- Top-level script run (module-level code and the tab bodies).
-- ------------------------------------------------------------------

/-- Outcome of one script run: the explicit `st.stop ()` taken when the
ledger file is missing, an uncaught exception aborting the run, or a
completed render carrying the computed artifacts. -/
inductive RunResult where
  | stopped
  | errored (e : PyErr)
  | rendered (buyTable : List (String × ℚ)) (topB : List BuyerRow)
      (forecast : Option (List (Nat × ℚ)))
deriving DecidableEq, Repr

/-- Lookup `ORIGINS [name]` (the UI multiselect only offers keys of
`ORIGINS`, so the miss default is unreachable from the UI). -/
def isoOf (o : String) : String :=
  (((ORIGINS.find? fun p => p.1 == o).map (·.2)).getD "")

/-- Embedding of the module-level script: the ledger-existence guard
(`st.error` + `st.stop`), the ledger load, the KPI fetch
`comtrade_price (ORIGINS [sel_origin [0]] if sel_origin else "GH",
[year - 1])`, the forecaster of tab 1, and the buy/sell rankings of
tab 2 (`buy_table` uses the same prior year).  KPI aggregations, the
vessel tab (whose failure modes mirror the bulk adapter and which
returns an empty frame without a key) and chart rendering cannot raise
and carry no verified claim; they are elided from the result.  An
uncaught exception anywhere aborts the run. -/
def scriptRun (fileExists : Bool) (fetch : String → Nat → FetchOutcome)
    (ledger : List RawRow) (selGrade : String) (sel : List String)
    (year : Nat) : RunResult :=
  if !fileExists then .stopped
  else
    let imports := load_tuticorin_xls ledger
    let kpiOrigin := match sel with
      | [] => "GH"
      | o :: _ => isoOf o
    match comtrade_price (fetch kpiOrigin) [year - 1] with
    | .error e => .errored e
    | .ok _ =>
      let fc := train_price_model imports selGrade
      match buy_table fetch sel [year - 1] with
      | .error e => .errored e
      | .ok bt => .rendered bt (top_buyers imports) fc

-- ------------------------------------------------------------------
-- Claims about the bulk-trade adapter.
-- ------------------------------------------------------------------

/-- The adapter keeps one row per payload record with a truthy
quantity: records with a zero or missing quantity are excluded. -/
theorem comtradeRows_length (y : Nat) (data : List JsonRec) :
    (comtradeRows y data).length = (data.filter fun rec => rec.qty.getD 0 ≠ 0).length := by
  induction data with
  | nil => rfl
  | cons rec data ih =>
    by_cases hq : rec.qty.getD 0 = 0 <;>
      simp [comtradeRows, List.filterMap_cons, List.filter_cons, hq, ih] <;>
      simpa [comtradeRows] using ih

/-- A fetch environment whose every request times out. -/
def fetchTimeout : Nat → FetchOutcome := fun _ => .transportError

/-- A fetch environment answering HTTP 200 with an unparseable body. -/
def fetchBadBody : Nat → FetchOutcome := fun _ => .response 200 .malformed

/-- A fetch environment answering HTTP 500 to every request. -/
def fetch500 : Nat → FetchOutcome := fun _ => .response 500 (.parsed none)

/-- C2, counterexample.  A transport error makes `comtrade_price` raise
`requests.RequestException` instead of returning an empty result; a
malformed payload makes it raise a JSON decode error; and for an
origin whose requests all answer HTTP 500 the ranking computation
raises `KeyError` on the columnless empty frame instead of silently
omitting the origin. -/
theorem C2_counterexample :
    comtrade_price fetchTimeout [2024] = .error .requestException ∧
    comtrade_price fetchBadBody [2024] = .error .jsonDecodeError ∧
    buy_table (fun _ => fetch500) ["Ghana"] [2024] = .error .keyError :=
  ⟨rfl, rfl, rfl⟩

/-- C2, amended.  Only the non-success-status failure is absorbed: when
every request of the bulk fetch answers with a non-success HTTP
status, `comtrade_price` returns an empty frame without raising, and
the buy ranking over such an origin then raises `KeyError` (the empty
frame has no `usd_per_t` column) rather than omitting the origin;
transport errors and malformed payloads propagate as exceptions (see
the counterexample). -/
theorem C2_adapter_failure_amended (fetch : Nat → FetchOutcome) (years : List Nat)
    (h : ∀ y ∈ years, ∃ s b, fetch y = .response s b ∧ s ≠ 200) :
    comtrade_price fetch years = .ok [] ∧
    buy_table (fun _ => fetch) ["Ghana"] years = .error .keyError := by
  have h1 : comtrade_price fetch years = .ok [] := comtradeGo_all_fail h
  have hsel : selOrigins ["Ghana"] = [("Ghana", "GH")] := rfl
  refine ⟨h1, ?_⟩
  simp [buy_table, hsel, buildEntries, buyEntry, h1, colMean_usd_per_t]

/-- C2, witness for the amended theorem at a concrete input. -/
theorem C2_adapter_failure_amended_witness :
    comtrade_price fetch500 [2024] = .ok [] ∧
    buy_table (fun _ => fetch500) ["Ghana"] [2024] = .error .keyError :=
  C2_adapter_failure_amended fetch500 [2024]
    (fun y _ => ⟨500, .parsed none, rfl, by norm_num⟩)

/-- A fetch environment answering HTTP 200 whose payload has one
sub-record, with quantity zero. -/
def fetchQtyZero : Nat → FetchOutcome :=
  fun _ => .response 200 (.parsed (some [{ tradeValue := some 5, qty := some 0 }]))

/-- C3, counterexample.  With a sole sub-record of quantity zero there
are no valid sub-records; the adapter frame is empty, and computing
the average trade price over it raises `KeyError` — it does not come
out as the undefined average the claim asserts. -/
theorem C3_counterexample :
    comtrade_price fetchQtyZero [2024] = .ok [] ∧
    colMean_usd_per_t [] = .error .keyError ∧
    (Except.error PyErr.keyError ≠ (Except.ok none : Except PyErr (Option ℚ))) :=
  ⟨rfl, rfl, by simp⟩

/-- C3, amended.  Every sub-record with a truthy (non-zero) quantity
yields a row whose unit price is `trade_value / quantity`; sub-records
with quantity zero (or missing) are excluded from the rows used for
averaging; but when no valid sub-record exists, the averaging step
raises `KeyError` on the columnless empty frame instead of producing
an undefined average. -/
theorem C3_unit_price_amended (y : Nat) (data : List JsonRec) :
    (∀ r ∈ comtradeRows y data, r.qty ≠ 0 ∧ r.usd_per_t = some (r.value / r.qty)) ∧
    (comtradeRows y data).length = (data.filter fun rec => rec.qty.getD 0 ≠ 0).length ∧
    colMean_usd_per_t [] = .error .keyError :=
  ⟨fun _ hr => comtradeRows_mem hr, comtradeRows_length y data, rfl⟩

/-- C3, witness at a concrete input: one valid and one zero-quantity
sub-record. -/
theorem C3_unit_price_amended_witness :
    ((CRow.mk 2024 6 2 (some 3)).qty ≠ 0 ∧
      (CRow.mk 2024 6 2 (some 3)).usd_per_t =
        some ((CRow.mk 2024 6 2 (some 3)).value / (CRow.mk 2024 6 2 (some 3)).qty)) ∧
    (comtradeRows 2024
        [{ tradeValue := some 6, qty := some 2 },
         { tradeValue := some 5, qty := some 0 }]).length = 1 := by
  constructor
  · refine (C3_unit_price_amended 2024
      [{ tradeValue := some 6, qty := some 2 },
       { tradeValue := some 5, qty := some 0 }]).1 _ ?_
    norm_num [comtradeRows, List.filterMap_cons, List.filterMap_nil]
  · exact (C3_unit_price_amended 2024
      [{ tradeValue := some 6, qty := some 2 },
       { tradeValue := some 5, qty := some 0 }]).2.1

/-- C10.  Every row of a frame `comtrade_price` returns has a non-zero
quantity and a defined `usd_per_t` equal to `value / qty`: the `None`
branch of the conditional expression building `usd_per_t` is
unreachable because rows are appended only under the `if qty:`
guard. -/
theorem C10_usd_per_t_defined (fetch : Nat → FetchOutcome) (years : List Nat)
    (rows : List CRow) (h : comtrade_price fetch years = .ok rows) :
    ∀ r ∈ rows, r.qty ≠ 0 ∧ r.usd_per_t = some (r.value / r.qty) :=
  comtradeGo_ok_mem h (fun r hr => absurd hr (List.not_mem_nil r))

/-- A fetch environment answering HTTP 200 with one valid sub-record. -/
def fetchOneGood : Nat → FetchOutcome :=
  fun _ => .response 200 (.parsed (some [{ tradeValue := some 6, qty := some 2 }]))

/-- C10, witness at a concrete input. -/
theorem C10_usd_per_t_defined_witness :
    (CRow.mk 2024 6 2 (some 3)).qty ≠ 0 ∧
    (CRow.mk 2024 6 2 (some 3)).usd_per_t =
      some ((CRow.mk 2024 6 2 (some 3)).value / (CRow.mk 2024 6 2 (some 3)).qty) := by
  refine C10_usd_per_t_defined fetchOneGood [2024] [CRow.mk 2024 6 2 (some 3)] ?_ _ ?_
  · norm_num [comtrade_price, comtradeGo, comtradeRows, fetchOneGood,
      List.filterMap_cons, List.filterMap_nil]
  · simp

-- ------------------------------------------------------------------
-- Claims about the ledger loader and the monthly aggregation.
-- ------------------------------------------------------------------

/-- A raw ledger row with the given port code and importer and nothing
else filled in, used for concrete instances. -/
def exRow (pc : String) (imp : String) : RawRow :=
  { date := none, portCode := some pc, goods := none, quantity := .blank,
    unitPrice := .blank, totalValue := .blank, importer := some imp,
    origin := none }

/-- C6.  The loader retains exactly the rows whose port code equals the
configured destination port `INTUT1`: every returned row carries that
port code, every matching input row is returned (coerced), the output
has one row per matching input row, and on the three-row example with
port codes INTUT1, INTUT1, XXXX1 it returns exactly the two INTUT1
rows. -/
theorem C6_ledger_filter (rows : List RawRow) :
    PORT_CODE_TUTICORIN = "INTUT1" ∧
    (∀ s ∈ load_tuticorin_xls rows, s.portCode = some PORT_CODE_TUTICORIN) ∧
    (∀ r ∈ rows, r.portCode = some PORT_CODE_TUTICORIN →
      coerceRow r ∈ load_tuticorin_xls rows) ∧
    (load_tuticorin_xls rows).length =
      (rows.filter fun r => r.portCode = some PORT_CODE_TUTICORIN).length ∧
    load_tuticorin_xls [exRow "INTUT1" "A", exRow "INTUT1" "B", exRow "XXXX1" "C"] =
      [coerceRow (exRow "INTUT1" "A"), coerceRow (exRow "INTUT1" "B")] := by
  refine ⟨rfl, ?_, ?_, List.length_map _ _, rfl⟩
  · intro s hs
    obtain ⟨r, hr, rfl⟩ := List.mem_map.mp hs
    exact of_decide_eq_true (List.mem_filter.mp hr).2
  · intro r hr hpc
    exact List.mem_map_of_mem coerceRow
      (List.mem_filter.mpr ⟨hr, decide_eq_true hpc⟩)

/-- C6, witness at the concrete three-row input. -/
theorem C6_ledger_filter_witness :
    (coerceRow (exRow "INTUT1" "A")).portCode = some PORT_CODE_TUTICORIN ∧
    coerceRow (exRow "XXXX1" "C") ∉
      load_tuticorin_xls [exRow "INTUT1" "A", exRow "INTUT1" "B", exRow "XXXX1" "C"] := by
  constructor
  · exact (C6_ledger_filter [exRow "INTUT1" "A", exRow "INTUT1" "B", exRow "XXXX1" "C"]).2.1
      _ (by decide)
  · decide

/-- The month keys of the aggregation are a sorted deduplication, hence
pairwise strictly increasing. -/
theorem monthsOf_pairwise_lt (rows : List ShipRow) :
    List.Pairwise (· < ·) (monthsOf rows) := by
  have hs : List.Sorted (· ≤ ·) (monthsOf rows) :=
    List.sorted_insertionSort (· ≤ ·) _
  have hn : (monthsOf rows).Nodup :=
    (List.perm_insertionSort (· ≤ ·) _).nodup_iff.mpr
      (List.nodup_dedup _)
  exact (hs.and hn).imp fun h => lt_of_le_of_ne h.1 h.2

/-- The months surviving the `dropna` of the aggregation are a sublist
of the grouped month keys. -/
theorem monthly_price_series_fst_sublist (rows : List ShipRow) :
    ((monthly_price_series rows).map Prod.fst).Sublist (monthsOf rows) := by
  unfold monthly_price_series
  generalize monthsOf rows = ms
  induction ms with
  | nil => simp
  | cons m ms ih =>
    rw [List.filterMap_cons]
    by_cases hm : (monthPrices rows m).isEmpty
    · rw [if_pos hm]
      exact ih.cons m
    · rw [if_neg hm, List.map_cons]
      exact ih.cons₂ m

/-- C7.  The month keys of the monthly price series produced by the
aggregation inside `train_price_model` (and the raw-series fallback)
are strictly increasing, hence unique: exactly one entry per calendar
month present in the output. -/
theorem C7_months_strictly_increasing (rows : List ShipRow) :
    List.Sorted (· < ·) ((monthly_price_series rows).map Prod.fst) ∧
    ((monthly_price_series rows).map Prod.fst).Nodup :=
  have hp : List.Pairwise (· < ·) ((monthly_price_series rows).map Prod.fst) :=
    (monthsOf_pairwise_lt rows).sublist (monthly_price_series_fst_sublist rows)
  ⟨hp, hp.imp ne_of_lt⟩

-- ------------------------------------------------------------------
-- Claims about the forecaster.
-- ------------------------------------------------------------------

/-- When the monthly series reaches the 12-point threshold, the
forecast frame covers the fitted history plus exactly the hardcoded
`periods = 6` future months. -/
theorem train_price_model_length (df : List ShipRow) (grade : String)
    (h : 12 ≤ (monthly_price_series (gradeFiltered df grade)).length) :
    (train_price_model df grade).map List.length =
      some ((monthly_price_series (gradeFiltered df grade)).length + 6) := by
  simp only [train_price_model]
  rw [if_neg (by omega)]
  simp [prophet_predict, make_future_dataframe]

/-- Twelve monthly shipments of grade RBS, one per month of 2023. -/
def df12 : List ShipRow :=
  (List.range 12).map fun i =>
    { date := some ⟨2023, i + 1, 1⟩, portCode := some "INTUT1",
      goods := some "RBS", quantity := some 1000, unitPrice := some 1200,
      totalValue := some 1, importer := some "A", origin := some "GH" }

/-- C1, counterexample.  On a 12-month series the forecast has
`12 + 6 = 18` points: the horizon is hardcoded to 6, so with the
configured horizon `h = 3` (the UI slider default) the claimed length
`len + h = 15` is wrong. -/
theorem C1_counterexample :
    (monthly_price_series (gradeFiltered df12 "RBS")).length = 12 ∧
    (train_price_model df12 "RBS").map List.length = some (12 + 6) ∧
    (12 + 6 : Nat) ≠ 12 + 3 := by
  have h12 : (monthly_price_series (gradeFiltered df12 "RBS")).length = 12 := rfl
  refine ⟨h12, ?_, by norm_num⟩
  rw [train_price_model_length df12 "RBS" (le_of_eq h12.symm), h12]

/-- C1, amended.  `train_price_model` returns `None` exactly when the
grade-filtered monthly series has fewer than 12 points; otherwise the
forecast length is the number of historical monthly points plus the
hardcoded 6 — not plus the configured horizon, which the forecaster
never receives. -/
theorem C1_forecast_length_amended (df : List ShipRow) (grade : String) :
    ((monthly_price_series (gradeFiltered df grade)).length < 12 →
      train_price_model df grade = none) ∧
    (12 ≤ (monthly_price_series (gradeFiltered df grade)).length →
      (train_price_model df grade).map List.length =
        some ((monthly_price_series (gradeFiltered df grade)).length + 6)) := by
  constructor
  · intro h
    simp only [train_price_model]
    rw [if_pos h]
  · exact train_price_model_length df grade

/-- C1, witness for the amended theorem: the empty ledger falls under
the guard, the 12-month ledger gets an 18-point forecast. -/
theorem C1_forecast_length_amended_witness :
    train_price_model [] "RBS" = none ∧
    (train_price_model df12 "RBS").map List.length = some 18 := by
  constructor
  · exact (C1_forecast_length_amended [] "RBS").1 (by decide)
  · have := (C1_forecast_length_amended df12 "RBS").2 (by decide)
    simpa using this

-- ------------------------------------------------------------------
-- Claims about the ranking engines and the script run.
-- ------------------------------------------------------------------

/-- C4.  The sell ranking groups shipments by importer (each output row
is the aggregate of its importer's group, importers are not repeated,
and each comes from some shipment), orders the rows descending by mean
paid unit price (missing means last), and returns at most 10 rows. -/
theorem C4_sell_ranking (rows : List ShipRow) :
    (top_buyers rows).length ≤ 10 ∧
    List.Sorted sellR (top_buyers rows) ∧
    ((top_buyers rows).map (·.importer)).Nodup ∧
    ∀ b ∈ top_buyers rows, b = buyerFor rows b.importer ∧
      ∃ r ∈ rows, r.importer = some b.importer := by
  refine ⟨?_, ?_, ?_, ?_⟩
  · exact List.length_take_le 10 _
  · exact (List.sorted_insertionSort sellR (proc_avg rows)).sublist
      (List.take_sublist 10 _)
  · have hkeys : (proc_avg rows).map (·.importer) =
        List.insertionSort (· ≤ ·) ((rows.filterMap (·.importer)).dedup) := by
      simp only [proc_avg, List.map_map]
      rw [show ((fun x : BuyerRow => x.importer) ∘ buyerFor rows) = id from
        funext fun k => rfl, List.map_id]
    have hpn : ((proc_avg rows).map (·.importer)).Nodup := by
      rw [hkeys]
      exact (List.perm_insertionSort (· ≤ ·) _).nodup_iff.mpr (List.nodup_dedup _)
    have hins : ((List.insertionSort sellR (proc_avg rows)).map (·.importer)).Nodup :=
      ((List.perm_insertionSort sellR (proc_avg rows)).map (·.importer)).nodup_iff.mpr hpn
    rw [top_buyers, List.map_take]
    exact List.Nodup.sublist (List.take_sublist 10 _) hins
  · intro b hb
    have hb1 : b ∈ List.insertionSort sellR (proc_avg rows) :=
      (List.take_sublist 10 _).subset hb
    have hb2 : b ∈ proc_avg rows :=
      (List.perm_insertionSort sellR (proc_avg rows)).mem_iff.mp hb1
    obtain ⟨k, hk, rfl⟩ := List.mem_map.mp hb2
    have hk2 : k ∈ (rows.filterMap (·.importer)).dedup :=
      (List.perm_insertionSort (· ≤ ·) _).mem_iff.mp hk
    obtain ⟨r, hr, hri⟩ := List.mem_filterMap.mp ((List.mem_dedup).mp hk2)
    exact ⟨rfl, r, hr, by simpa [buyerFor] using hri⟩

/-- A one-shipment ledger frame used for concrete instances. -/
def rows1 : List ShipRow :=
  [{ date := some ⟨2024, 1, 2⟩, portCode := some "INTUT1", goods := some "RBS",
     quantity := some 5, unitPrice := some 40, totalValue := some 200,
     importer := some "A", origin := some "GH" }]

/-- C4, witness at a concrete one-importer input. -/
theorem C4_sell_ranking_witness :
    (top_buyers rows1).length ≤ 10 ∧
    buyerFor rows1 "A" = buyerFor rows1 (buyerFor rows1 "A").importer ∧
    ∃ r ∈ rows1, r.importer = some (buyerFor rows1 "A").importer := by
  obtain ⟨h1, -, -, h4⟩ := C4_sell_ranking rows1
  have hmem : buyerFor rows1 "A" ∈ top_buyers rows1 := by
    rw [show top_buyers rows1 = [buyerFor rows1 "A"] from rfl]
    exact List.mem_singleton_self _
  obtain ⟨hb, hr⟩ := h4 _ hmem
  exact ⟨h1, by rw [← hb], hr⟩

/-- The average `usd_per_t` of a non-empty adapter frame (the value the
`mean ()` call produces when the column exists). -/
def fobMean (df : List CRow) : ℚ :=
  (df.filterMap (·.usd_per_t)).sum / ((df.filterMap (·.usd_per_t)).length : ℚ)

/-- On a frame that came out of `comtrade_price` non-empty, the column
mean is defined and equals `fobMean`. -/
theorem colMean_ok {fetch : Nat → FetchOutcome} {years : List Nat} {df : List CRow}
    (h : comtrade_price fetch years = .ok df) (hne : df ≠ []) :
    colMean_usd_per_t df = .ok (some (fobMean df)) := by
  have hall := comtradeGo_ok_mem h (fun r hr => absurd hr (List.not_mem_nil r))
  obtain ⟨r, hr⟩ := List.exists_mem_of_ne_nil df hne
  have hvz : r.usd_per_t = some (r.value / r.qty) := (hall r hr).2
  have hv : (r.value / r.qty) ∈ df.filterMap (·.usd_per_t) :=
    List.mem_filterMap.mpr ⟨r, hr, hvz⟩
  have hvne : df.filterMap (·.usd_per_t) ≠ [] := List.ne_nil_of_mem hv
  simp [colMean_usd_per_t, List.isEmpty_iff, hne, hvne, fobMean]

/-- The comprehension succeeds entry by entry when every selected
origin's fetch succeeds with a non-empty frame. -/
theorem buildEntries_ok (fetch : String → Nat → FetchOutcome) (years : List Nat)
    (res : String → List CRow) :
    ∀ ps : List (String × String),
      (∀ p ∈ ps, comtrade_price (fetch p.2) years = .ok (res p.2) ∧ res p.2 ≠ []) →
      buildEntries fetch years ps =
        .ok (ps.map fun p => (p.1, some (fobMean (res p.2)))) := by
  intro ps
  induction ps with
  | nil => intro _; rfl
  | cons p ps ih =>
    intro h
    obtain ⟨h1, h2⟩ := h p (List.mem_cons_self p ps)
    have hmean := colMean_ok h1 h2
    simp only [buildEntries, buyEntry, h1, hmean,
      ih fun q hq => h q (List.mem_cons_of_mem _ hq), List.map_cons]

/-- Dropping the `dropna` on a frame of entirely defined prices is the
identity. -/
theorem filterMap_all_some (ps : List (String × String)) (f : String × String → ℚ) :
    ((ps.map fun p => (p.1, some (f p))).filterMap fun q => q.2.map ((q.1, ·))) =
      ps.map fun p => (p.1, f p) := by
  induction ps with
  | nil => rfl
  | cons p ps ih => simp [List.filterMap_cons, ih]

/-- C5, counterexample.  With the sole selected origin answering HTTP
500, the origin's average price is undefined; the claim says the
origin is then excluded (an empty ranking), but the code raises
`KeyError` on the columnless empty frame instead. -/
theorem C5_counterexample :
    buy_table (fun _ => fetch500) ["Tanzania"] [2024] = .error .keyError ∧
    Except.error PyErr.keyError ≠
      (Except.ok [] : Except PyErr (List (String × ℚ))) :=
  ⟨rfl, by simp⟩

/-- C5, amended.  When every selected origin's fetch succeeds with at
least one valid sub-record, the buy ranking lists exactly the selected
origins, each with its average adapter-reported unit price, ordered
ascending by price; but an origin whose average is undefined makes the
computation raise `KeyError` instead of being excluded (see the
counterexample). -/
theorem C5_buy_ranking_amended (fetch : String → Nat → FetchOutcome)
    (sel : List String) (years : List Nat) (res : String → List CRow)
    (h : ∀ p ∈ selOrigins sel,
      comtrade_price (fetch p.2) years = .ok (res p.2) ∧ res p.2 ≠ [])
    (hne : selOrigins sel ≠ []) :
    ∃ t, buy_table fetch sel years = .ok t ∧
      List.Sorted buyR t ∧
      t.Perm ((selOrigins sel).map fun p => (p.1, fobMean (res p.2))) := by
  refine ⟨List.insertionSort buyR
    ((selOrigins sel).map fun p => (p.1, fobMean (res p.2))), ?_, ?_, ?_⟩
  · have hb := buildEntries_ok fetch years res (selOrigins sel) h
    have hes : ((selOrigins sel).map fun p =>
        (p.1, some (fobMean (res p.2)))).isEmpty = false := by
      simp [List.isEmpty_iff, hne]
    simp [buy_table, hb, hes, filterMap_all_some]
    congr 1
    rw [show ((fun (q : String × Option ℚ) => q.2.map ((q.1, ·))) ∘
        fun p : String × String => (p.1, some (fobMean (res p.2)))) =
        some ∘ fun p : String × String => (p.1, fobMean (res p.2)) from
      funext fun p => rfl]
    exact congrFun (List.filterMap_eq_map _) _
  · exact List.sorted_insertionSort buyR _
  · exact List.perm_insertionSort buyR _

/-- C5, witness at a concrete input: one selected origin with one valid
sub-record. -/
theorem C5_buy_ranking_amended_witness :
    ∃ t, buy_table (fun _ => fetchOneGood) ["Ghana"] [2024] = .ok t ∧
      List.Sorted buyR t ∧
      t.Perm [("Ghana", fobMean [CRow.mk 2024 6 2 (some 3)])] := by
  have := C5_buy_ranking_amended (fun _ => fetchOneGood) ["Ghana"] [2024]
    (fun _ => [CRow.mk 2024 6 2 (some 3)])
    (fun p _ => ⟨by norm_num [comtrade_price, comtradeGo, comtradeRows,
      fetchOneGood, List.filterMap_cons, List.filterMap_nil], by simp⟩)
    (by decide)
  simpa [selOrigins, ORIGINS] using this

/-- C8, counterexample.  With the ledger file present but the network
timing out, the run ends in an uncaught `requests` exception — a stop
condition different from the missing-ledger halt, so the missing
ledger is not the only error class that stops the system. -/
theorem C8_counterexample :
    scriptRun true (fun _ => fetchTimeout) [] "RBS" ["Ghana"] 2025 =
      .errored .requestException ∧
    RunResult.errored .requestException ≠ RunResult.stopped :=
  ⟨rfl, by simp⟩

/-- C8, amended.  A missing ledger resource halts initialization (the
explicit stop), but it is not the only stop condition: an unhandled
adapter exception (here a transport error on the KPI fetch) also
aborts the run, for every ledger, grade, selection and year. -/
theorem C8_stop_conditions_amended (fetch : String → Nat → FetchOutcome)
    (ledger : List RawRow) (grade : String) (sel : List String) (year : Nat) :
    scriptRun false fetch ledger grade sel year = .stopped ∧
    scriptRun true (fun _ => fetchTimeout) ledger grade sel year =
      .errored .requestException := by
  refine ⟨rfl, ?_⟩
  simp [scriptRun, comtrade_price, comtradeGo, fetchTimeout]
